import Mathlib

/-!
# Verification of the line-girl-effect core (`src/main.py`, `src/controls.py`)

Shallow embedding of the image-processing pipeline and particle simulation of
`src/main.py`.  Machine `float` arithmetic is modelled over `ℝ` (exact reals);
the one place where IEEE semantics is observable — the unguarded
`(data - min) / (max - min)` of `apply_image_effects`, which produces `0/0 = NaN`
when the field is constant, and `scipy.ndimage.gaussian_filter1d` with
`sigma = 0`, whose kernel computation `-0.5 / (sigma*sigma)` raises
`ZeroDivisionError` — is modelled by `Option`, with `none` standing for the
NaN-filled / erroring outcome.  The integer-valued loader path
(`load_image_data`) is modelled over `ℚ` and is fully executable.
-/

namespace LineGirl

/-- Canvas dimension, `CANVAS_SIZE = 512` of `src/main.py`. -/
abbrev CANVAS_SIZE : ℕ := 512

/-- An `N×N` float matrix (brightness fields, image buffers). -/
abbrev Field : Type := Fin CANVAS_SIZE → Fin CANVAS_SIZE → ℝ

/-- One streakline: an array of `N` x-positions (`new_column` etc.). -/
abbrev Col : Type := Fin CANVAS_SIZE → ℝ

/-- The adjustable image-processing parameters, `PROCESS_PARAMS` of
`src/main.py` (mutable via the `controls.py` sliders). -/
structure ProcessParams where
  contrast_steepness : ℝ
  contrast_midpoint : ℝ
  blur_sigma : ℝ

/-- The physics globals of `src/main.py` (`LINES_PER_FRAME`, `FRAME_INTERVAL`,
`BASE_SPEED`, `FRICTION_FACTOR`, `ACCELERATION`, `LINE_TENSION`), gathered in a
record since the `controls.py` sliders treat them as one mutable store. -/
structure PhysicsParams where
  lines_per_frame : ℕ
  frame_interval : ℕ
  base_speed : ℝ
  friction_factor : ℝ
  acceleration : ℝ
  line_tension : ℝ

/-- The default physics parameter values of `src/main.py` lines 28–56. -/
noncomputable def defaultPhysics : PhysicsParams :=
  { lines_per_frame := 1
    frame_interval := 15
    base_speed := 3
    friction_factor := 9/10
    acceleration := 1/10000
    line_tension := 3/10 }

/-- The default `PROCESS_PARAMS` values of `src/main.py` lines 59–63. -/
noncomputable def defaultProcess : ProcessParams :=
  { contrast_steepness := 9
    contrast_midpoint := 3/10
    blur_sigma := 2 }

/-! ## The scipy 1-D Gaussian filter

`scipy.ndimage.gaussian_filter1d(v, sigma)` with the default `truncate = 4.0`
and boundary mode `reflect`: kernel radius `int(4*sigma + 0.5)`, unnormalised
weights `exp(-0.5/sigma² · k²)`, normalised to sum 1, correlated against the
input extended by edge-repeating reflection.  The definitions below model the
`sigma > 0` case (at `sigma = 0` the library raises `ZeroDivisionError`
computing `-0.5 / (sigma*sigma)`; callers that can reach `sigma = 0` are
modelled with an explicit `Option` guard). -/

/-- Kernel radius `int(truncate * sigma + 0.5)` with `truncate = 4.0`. -/
noncomputable def gaussRadius (σ : ℝ) : ℕ := ⌊4 * σ + 1/2⌋₊

/-- Unnormalised kernel weight `exp(-0.5/sigma² · k²)`. -/
noncomputable def gaussPhi (σ : ℝ) (k : ℤ) : ℝ :=
  Real.exp (-(1/2) / (σ * σ) * (k : ℝ) ^ 2)

/-- The kernel index range `-radius .. radius`. -/
noncomputable def gaussSupport (σ : ℝ) : Finset ℤ :=
  Finset.Icc (-(gaussRadius σ : ℤ)) (gaussRadius σ)

/-- Kernel normalisation constant (`phi_x.sum()`). -/
noncomputable def gaussNorm (σ : ℝ) : ℝ := ∑ k ∈ gaussSupport σ, gaussPhi σ k

/-- Normalised kernel weight (`phi_x / phi_x.sum()`). -/
noncomputable def gaussWeight (σ : ℝ) (k : ℤ) : ℝ := gaussPhi σ k / gaussNorm σ

/-- The `reflect` boundary mode of `scipy.ndimage`: the signal
`a b c d` is extended as `... d c b a | a b c d | d c b a ...`. -/
def reflectIndex (i : ℤ) : Fin CANVAS_SIZE :=
  if h : i % (2 * (CANVAS_SIZE : ℤ)) < (CANVAS_SIZE : ℤ) then
    ⟨(i % (2 * (CANVAS_SIZE : ℤ))).toNat, by
      have h0 : 0 ≤ i % (2 * (CANVAS_SIZE : ℤ)) := Int.emod_nonneg i (by decide)
      omega⟩
  else
    ⟨(2 * (CANVAS_SIZE : ℤ) - 1 - i % (2 * (CANVAS_SIZE : ℤ))).toNat, by
      have h0 : 0 ≤ i % (2 * (CANVAS_SIZE : ℤ)) := Int.emod_nonneg i (by decide)
      have h1 : i % (2 * (CANVAS_SIZE : ℤ)) < 2 * (CANVAS_SIZE : ℤ) :=
        Int.emod_lt_of_pos i (by decide)
      omega⟩

/-- `gaussian_filter1d` on a length-`N` vector: correlation with the
normalised Gaussian kernel under `reflect` boundary handling (the kernel is
symmetric, so correlation and convolution coincide). -/
noncomputable def gaussianFilter1d (σ : ℝ) (v : Fin CANVAS_SIZE → ℝ) :
    Fin CANVAS_SIZE → ℝ :=
  fun i => ∑ k ∈ gaussSupport σ, gaussWeight σ k * v (reflectIndex ((i : ℤ) - k))

theorem gaussSupport_nonempty (σ : ℝ) : (gaussSupport σ).Nonempty :=
  ⟨0, by simp [gaussSupport]⟩

theorem gaussNorm_pos (σ : ℝ) : 0 < gaussNorm σ :=
  Finset.sum_pos (fun _ _ => Real.exp_pos _) (gaussSupport_nonempty σ)

theorem gaussWeight_nonneg (σ : ℝ) (k : ℤ) : 0 ≤ gaussWeight σ k :=
  div_nonneg (Real.exp_pos _).le (gaussNorm_pos σ).le

theorem sum_gaussWeight (σ : ℝ) : ∑ k ∈ gaussSupport σ, gaussWeight σ k = 1 := by
  unfold gaussWeight
  rw [← Finset.sum_div]
  exact div_self (gaussNorm_pos σ).ne'

/-- The filtered signal is bounded below by any lower bound of the input:
each output sample is a convex combination of input samples. -/
theorem le_gaussianFilter1d {lo : ℝ} {v : Fin CANVAS_SIZE → ℝ} (σ : ℝ)
    (h : ∀ j, lo ≤ v j) (i : Fin CANVAS_SIZE) : lo ≤ gaussianFilter1d σ v i := by
  have : lo = ∑ k ∈ gaussSupport σ, gaussWeight σ k * lo := by
    rw [← Finset.sum_mul, sum_gaussWeight, one_mul]
  rw [this, gaussianFilter1d]
  exact Finset.sum_le_sum fun k _ =>
    mul_le_mul_of_nonneg_left (h _) (gaussWeight_nonneg σ k)

/-- The filtered signal is bounded above by any upper bound of the input. -/
theorem gaussianFilter1d_le {hi : ℝ} {v : Fin CANVAS_SIZE → ℝ} (σ : ℝ)
    (h : ∀ j, v j ≤ hi) (i : Fin CANVAS_SIZE) : gaussianFilter1d σ v i ≤ hi := by
  have : hi = ∑ k ∈ gaussSupport σ, gaussWeight σ k * hi := by
    rw [← Finset.sum_mul, sum_gaussWeight, one_mul]
  rw [this, gaussianFilter1d]
  exact Finset.sum_le_sum fun k _ =>
    mul_le_mul_of_nonneg_left (h _) (gaussWeight_nonneg σ k)

/-- Filtering a constant signal returns the same constant. -/
theorem gaussianFilter1d_const (σ c : ℝ) (i : Fin CANVAS_SIZE) :
    gaussianFilter1d σ (fun _ => c) i = c :=
  le_antisymm (gaussianFilter1d_le σ (fun _ => le_rfl) i)
    (le_gaussianFilter1d σ (fun _ => le_rfl) i)

/-! ## The Brightness Processor (`apply_image_effects`, lines 129–147)

`apply_image_effects` applies an S-curve, a min-max re-normalisation, a
separable Gaussian blur, and a vertical flip with scaling by 255.  Two steps
can leave IEEE-float territory and are therefore modelled with `Option`:

* line 140, `data = (data - data.min()) / (data.max() - data.min())`, has no
  guard; on a constant field every entry becomes `0/0 = NaN` (modelled `none`);
* `gaussian_filter1d(..., sigma=0)` raises `ZeroDivisionError` inside scipy's
  kernel construction (modelled `none`).
-/

/-- The logistic S-curve of line 137: `1 / (1 + exp(-(data - midpoint) * steepness))`. -/
noncomputable def sCurve (p : ProcessParams) (x : ℝ) : ℝ :=
  1 / (1 + Real.exp (-(x - p.contrast_midpoint) * p.contrast_steepness))

/-- `data.min()`: minimum over the whole `N×N` field. -/
noncomputable def fieldMin (d : Field) : ℝ :=
  Finset.univ.inf' Finset.univ_nonempty
    (fun q : Fin CANVAS_SIZE × Fin CANVAS_SIZE => d q.1 q.2)

/-- `data.max()`: maximum over the whole `N×N` field. -/
noncomputable def fieldMax (d : Field) : ℝ :=
  Finset.univ.sup' Finset.univ_nonempty
    (fun q : Fin CANVAS_SIZE × Fin CANVAS_SIZE => d q.1 q.2)

/-- The value computed by line 140, `(data - data.min()) / (data.max() - data.min())`,
in the non-degenerate case where the denominator is nonzero. -/
noncomputable def renormValue (d : Field) : Field :=
  fun i j => (d i j - fieldMin d) / (fieldMax d - fieldMin d)

/-- Line 140 as executed by IEEE floats: when `max == min` every entry is
`0/0 = NaN` (the source has no guard), modelled as `none`. -/
noncomputable def renormalize (d : Field) : Option Field :=
  if fieldMax d = fieldMin d then none else some (renormValue d)

/-- `gaussian_filter1d(data, sigma, axis=0)`: filter each column down the row
index. -/
noncomputable def gaussAxis0 (σ : ℝ) (d : Field) : Field :=
  fun i j => gaussianFilter1d σ (fun r => d r j) i

/-- `gaussian_filter1d(data, sigma, axis=1)`: filter each row along the column
index. -/
noncomputable def gaussAxis1 (σ : ℝ) (d : Field) : Field :=
  fun i j => gaussianFilter1d σ (d i) j

/-- Lines 143–145: the separable blur, `none` at `sigma = 0` where scipy
raises `ZeroDivisionError`. -/
noncomputable def gaussianBlurField (σ : ℝ) (d : Field) : Option Field :=
  if σ = 0 then none else some (gaussAxis1 σ (gaussAxis0 σ d))

/-- `np.flipud` row index: row `i` of the output is row `N-1-i` of the input. -/
def flipIdx (i : Fin CANVAS_SIZE) : Fin CANVAS_SIZE :=
  ⟨CANVAS_SIZE - 1 - (i : ℕ), by omega⟩

/-- `apply_image_effects` (lines 129–147): S-curve, min-max re-normalisation,
separable blur, then `np.flipud(data * 255.0)`.  `none` models the NaN-filled
buffer of the unguarded division (constant field) and the scipy error at
`sigma = 0`. -/
noncomputable def apply_image_effects (p : ProcessParams) (data : Field) :
    Option Field :=
  (renormalize (fun i j => sCurve p (data i j))).bind fun d1 =>
    (gaussianBlurField p.blur_sigma d1).map fun d2 =>
      fun i j => d2 (flipIdx i) j * 255

/-- Total variant of `apply_image_effects` used where only data flow matters
(the UI event model and the allocation model): identical to
`apply_image_effects` whenever that returns `some`; on its `none` cases this
variant uses Lean's total division (`x / 0 = 0`) in place of NaN, which the
theorems stated against it never observe. -/
noncomputable def apply_image_effects_total (p : ProcessParams) (data : Field) :
    Field :=
  let d1 := renormValue (fun i j => sCurve p (data i j))
  let d2 := gaussAxis1 p.blur_sigma (gaussAxis0 p.blur_sigma d1)
  fun i j => d2 (flipIdx i) j * 255

/-! ## The Image Loader (`load_image_data`, lines 91–126)

The acquisition logic (lines 96–108) is modelled exactly: an empty path raises
`FileNotFoundError` itself (`if image_path:` is false for `""`), a nonexistent
path makes `Image.open` raise, and both exceptions are caught and replaced by
the synthetic fallback texture `sin(xv*10)*cos(yv*5)*127+128` (lines 103–108).
The PIL stages (lines 110–113: `crop_center_square`, `convert("L")`,
LANCZOS `resize`) are external-library image operations producing an `N×N`
8-bit luminance image; they are abstracted as a `decode` function from the
acquired source to `N×N` bytes.  The numeric stages (lines 116–124:
normalisation, percentile stretch, clip) are modelled concretely over `ℚ`. -/

/-- An `N×N` field of exact rationals (the loader's output). -/
abbrev FieldQ : Type := Fin CANVAS_SIZE → Fin CANVAS_SIZE → ℚ

/-- What `load_image_data` ends up processing: either a successfully opened
image file, or the deterministic sinusoidal fallback texture
`(sin(xv*10)*cos(yv*5)*127 + 128).astype("uint8")` of lines 103–108. -/
inductive SourceImage (Img : Type) where
  | file (img : Img)
  | fallback

/-- `np.percentile(xs, q)` with the default linear interpolation: sort, take
position `q/100 * (n-1)`, and interpolate linearly between the two adjacent
order statistics. -/
def npPercentile (xs : List ℚ) (q : ℚ) : ℚ :=
  let s := xs.mergeSort (fun a b => decide (a ≤ b))
  let pos : ℚ := q / 100 * ((s.length : ℚ) - 1)
  let lo := s.getD (⌊pos⌋).toNat 0
  let hi := s.getD ((⌊pos⌋).toNat + 1) lo
  lo + (pos - (⌊pos⌋ : ℚ)) * (hi - lo)

/-- Flatten an `N×N` rational field row-major (the view `np.percentile` takes). -/
def fieldToList (d : FieldQ) : List ℚ :=
  (List.finRange CANVAS_SIZE).flatMap fun i =>
    (List.finRange CANVAS_SIZE).map fun j => d i j

/-- `np.clip(x, 0, 1)` on one sample. -/
def clip01 (x : ℚ) : ℚ := min (max x 0) 1

/-- Lines 116–124 of `load_image_data`: `data = np.array(img)/255.0`, the
2nd/98th-percentile histogram stretch guarded by `p_max - p_min > 0`, and
`np.clip(data, 0, 1)`. -/
def postprocessLoaded (img : Fin CANVAS_SIZE → Fin CANVAS_SIZE → Fin 256) :
    FieldQ :=
  let data : FieldQ := fun i j => (img i j : ℚ) / 255
  let p_min := npPercentile (fieldToList data) 2
  let p_max := npPercentile (fieldToList data) 98
  let stretched : FieldQ :=
    if p_max - p_min > 0 then fun i j => (data i j - p_min) / (p_max - p_min)
    else data
  fun i j => clip01 (stretched i j)

/-- `load_image_data(image_path)` (lines 91–126).  `openImage` models
`PIL.Image.open` against the file system (`none` = `FileNotFoundError`);
`decode` models the crop/convert/LANCZOS-resize stages of lines 110–113.
The function is total: every exception of the acquisition step is caught by
the source's `try/except` and replaced by the fallback texture. -/
def load_image_data {Img : Type}
    (decode : SourceImage Img → Fin CANVAS_SIZE → Fin CANVAS_SIZE → Fin 256)
    (openImage : String → Option Img) (image_path : String) : FieldQ :=
  let src : SourceImage Img :=
    if image_path = "" then SourceImage.fallback
    else
      match openImage image_path with
      | some img => SourceImage.file img
      | none => SourceImage.fallback
  postprocessLoaded (decode src)

/-! ## The Particle Simulation (`animate`, lines 329–378)

The mutable globals `particles_x`, `frame_count`, `is_generating` form the
simulation state; `animate` is one tick.  A NumPy array of x-positions is a
`Col`; in-place mutation (`col_x += ...`, `col_x[:] = ...`) becomes functional
update. -/

/-- The simulation's mutable globals (`src/main.py` lines 186–188). -/
structure SimState where
  particles_x : List Col
  frame_count : ℕ
  is_generating : Bool

/-- `np.clip(x, lo, hi)` on one float. -/
noncomputable def clipR (x lo hi : ℝ) : ℝ := min (max x lo) hi

/-- Line 344, `np.clip(col_x, 0, CANVAS_SIZE - 1).astype(int)` on one sample:
clamp to `[0, N-1]` then truncate.  `astype(int)` truncates toward zero, which
on the clamped (nonnegative) value coincides with the floor. -/
noncomputable def sampleIndex (x : ℝ) : ℤ := ⌊clipR x 0 ((CANVAS_SIZE : ℝ) - 1)⌋

theorem sampleIndex_nonneg (x : ℝ) : 0 ≤ sampleIndex x := by
  apply Int.le_floor.2
  simp only [Int.cast_zero, clipR]
  exact le_min (le_max_right x 0) (by norm_num)

theorem sampleIndex_lt (x : ℝ) : sampleIndex x < (CANVAS_SIZE : ℤ) := by
  apply Int.floor_lt.2
  calc clipR x 0 ((CANVAS_SIZE : ℝ) - 1) ≤ (CANVAS_SIZE : ℝ) - 1 :=
        min_le_right _ _
    _ < ((CANVAS_SIZE : ℤ) : ℝ) := by norm_num

/-- The sampling index as a `Fin`, justified by the clamp. -/
noncomputable def sampleFin (x : ℝ) : Fin CANVAS_SIZE :=
  ⟨(sampleIndex x).toNat, by
    have h1 := sampleIndex_nonneg x
    have h2 := sampleIndex_lt x
    omega⟩

/-- Lines 342–354 on one row of one column: sample the brightness at the
clamped integer index, derive the friction-damped speed plus the
position-proportional acceleration term, and advance. -/
noncomputable def advanceCol (P : PhysicsParams) (pixels : Field) (col_x : Col) :
    Col := fun i =>
  let brightness := pixels i (sampleFin (col_x i))
  let norm_b := brightness / 255
  let current_speed := P.base_speed * (1 - norm_b * P.friction_factor)
  let x_accel := col_x i * P.acceleration
  col_x i + (current_speed + x_accel)

/-- Lines 342–357: advance then smooth
(`col_x[:] = gaussian_filter1d(col_x, sigma=LINE_TENSION)`). -/
noncomputable def advanceSmooth (P : PhysicsParams) (pixels : Field) (col_x : Col) :
    Col :=
  gaussianFilter1d P.line_tension (advanceCol P pixels col_x)

/-- `np.min(col_x)`: minimum x-position of a column. -/
noncomputable def colMin (c : Col) : ℝ := Finset.univ.inf' Finset.univ_nonempty c

/-- The spawn step (lines 334–337): after incrementing `frame_count`, if
generation is enabled and `frame_count % FRAME_INTERVAL == 0`, append one
all-zero column.  (The global `LINES_PER_FRAME` is never read here.) -/
def spawnList (P : PhysicsParams) (s : SimState) : List Col :=
  if s.is_generating = true ∧ (s.frame_count + 1) % P.frame_interval = 0 then
    s.particles_x ++ [fun _ => 0]
  else s.particles_x

/-- One call of `animate` (lines 329–363): increment the tick counter, spawn,
advance-and-smooth every live column (including the one just spawned), and
retain exactly the columns whose minimum x-position is `< CANVAS_SIZE`. -/
noncomputable def animate (P : PhysicsParams) (pixels : Field) (s : SimState) :
    SimState :=
  { particles_x :=
      ((spawnList P s).map (advanceSmooth P pixels)).filter
        (fun c => decide (colMin c < (CANVAS_SIZE : ℝ)))
    frame_count := s.frame_count + 1
    is_generating := s.is_generating }

/-! ## The UI event model (callbacks of `src/main.py`, lines 194–269 and 329)

One step of the application: either an animation tick or one of the button
callbacks.  Dialog results are carried in the event (a `none` result means the
dialog was cancelled).  `recompute_count` instruments the number of times
`apply_image_effects` has been invoked, which is what the caching claim is
about; values are tracked with the total variant of the processor. -/

/-- The application's mutable globals relevant to processing and simulation
(`pixels`, `raw_normalized_data`, `PROCESS_PARAMS`, `current_image_path`,
colors, and the simulation globals), plus the `recompute_count`
instrumentation counter. -/
structure AppState where
  raw_normalized_data : Option Field
  process_params : ProcessParams
  pixels : Field
  current_image_path : String
  current_bg_color : String
  current_dot_color : String
  view_visible : Bool
  sim : SimState
  recompute_count : ℕ

/-- The user-interaction events of `src/main.py`: the animation timer tick and
the five button callbacks.  `selectImage` carries the chosen path together
with the raw field `load_image_data` returned for it; color events carry the
chosen color; `none` models a cancelled dialog. -/
inductive UIEvent where
  | animateTick
  | toggleView
  | selectImage (picked : Option (String × Field))
  | setBgColor (picked : Option String)
  | setDotColor (picked : Option String)
  | toggleGeneration

/-- One event-handler step, transcribed callback by callback:

* `animateTick` → `animate` (lines 329–378): reads the cached `pixels`, never
  calls `apply_image_effects`;
* `toggle_view` (194–201): display flags only;
* `select_image` (204–225): on a chosen file, caches the new raw data, calls
  `apply_image_effects` into the global `pixels`, clears `particles_x`, and
  resets `frame_count`;
* `set_bg_color` (228–240): color only;
* `set_dot_color` (243–259): sets the dot color if picked, and then — whenever
  `raw_normalized_data is not None`, even if the dialog was cancelled — calls
  `apply_image_effects(raw_normalized_data)` again, assigning the result to a
  *local* variable `pixels` (no `global pixels` declaration), so the cached
  global buffer is unchanged while a recomputation still runs;
* `toggle_generation` (262–269): flips `is_generating`. -/
noncomputable def handleEvent (P : PhysicsParams) (e : UIEvent) (s : AppState) :
    AppState :=
  match e with
  | .animateTick => { s with sim := animate P s.pixels s.sim }
  | .toggleView => { s with view_visible := !s.view_visible }
  | .selectImage none => s
  | .selectImage (some (path, raw)) =>
      { s with
        current_image_path := path
        raw_normalized_data := some raw
        pixels := apply_image_effects_total s.process_params raw
        recompute_count := s.recompute_count + 1
        sim := { particles_x := [], frame_count := 0,
                 is_generating := s.sim.is_generating } }
  | .setBgColor none => s
  | .setBgColor (some c) => { s with current_bg_color := c }
  | .setDotColor picked =>
      let s1 := match picked with
        | some c => { s with current_dot_color := c }
        | none => s
      match s1.raw_normalized_data with
      | some _ => { s1 with recompute_count := s1.recompute_count + 1 }
      | none => s1
  | .toggleGeneration =>
      { s with sim := { s.sim with is_generating := !s.sim.is_generating } }

/-! ## Allocation model of `apply_image_effects`

To express that `apply_image_effects` never writes into its argument, buffers
live in an id-indexed heap and every NumPy expression of the function body
(`1/(1+np.exp(...))`, the subtraction/division of line 140, each
`gaussian_filter1d` call, and `np.flipud(data * 255.0)`) allocates a fresh
array — none of these operate in place on the input.  (`np.flipud` itself
returns a view, but a view of the freshly allocated `data * 255.0` temporary,
so the returned buffer still shares no storage with the input.) -/

/-- A heap of float matrices: ids `0, ..., next-1` are allocated. -/
structure Heap where
  next : ℕ
  arr : ℕ → Field

/-- Allocate a fresh array holding `d`; existing ids are untouched. -/
def Heap.alloc (h : Heap) (d : Field) : Heap :=
  { next := h.next + 1, arr := fun k => if k = h.next then d else h.arr k }

/-- `apply_image_effects` as heap steps: each rebinding of `data` in lines
137–147 allocates a new array computed from the previous one; the input id is
only ever read. -/
noncomputable def apply_image_effects_heap (p : ProcessParams) (h : Heap)
    (input : ℕ) : Heap × ℕ :=
  let i1 := h.next
  let h1 := h.alloc (fun i j => sCurve p (h.arr input i j))
  let i2 := h1.next
  let h2 := h1.alloc (renormValue (h1.arr i1))
  let i3 := h2.next
  let h3 := h2.alloc (gaussAxis0 p.blur_sigma (h2.arr i2))
  let i4 := h3.next
  let h4 := h3.alloc (gaussAxis1 p.blur_sigma (h3.arr i3))
  let i5 := h4.next
  let h5 := h4.alloc (fun i j => h4.arr i4 (flipIdx i) j * 255)
  (h5, i5)

theorem apply_image_effects_heap_next (p : ProcessParams) (h : Heap) (input : ℕ) :
    (apply_image_effects_heap p h input).1.next = h.next + 5 := rfl

theorem apply_image_effects_heap_out (p : ProcessParams) (h : Heap) (input : ℕ) :
    (apply_image_effects_heap p h input).2 = h.next + 4 := rfl

/-- Already-allocated arrays are untouched by a run of the processor. -/
theorem apply_image_effects_heap_preserves (p : ProcessParams) (h : Heap)
    {input k : ℕ} (hk : k < h.next) :
    (apply_image_effects_heap p h input).1.arr k = h.arr k := by
  simp only [apply_image_effects_heap, Heap.alloc]
  have n1 : k ≠ h.next + 4 := by omega
  have n2 : k ≠ h.next + 3 := by omega
  have n3 : k ≠ h.next + 2 := by omega
  have n4 : k ≠ h.next + 1 := by omega
  have n5 : k ≠ h.next := by omega
  simp [n1, n2, n3, n4, n5]

/-- The output array holds exactly the value-level result of the processor
applied to the input array's contents. -/
theorem apply_image_effects_heap_value (p : ProcessParams) (h : Heap)
    {input : ℕ} (hin : input < h.next) :
    (apply_image_effects_heap p h input).1.arr
        (apply_image_effects_heap p h input).2 =
      apply_image_effects_total p (h.arr input) := by
  simp only [apply_image_effects_heap, Heap.alloc, apply_image_effects_total]
  have n1 : ¬(h.next + 3 = h.next + 2) := by omega
  have n2 : ¬(h.next + 2 = h.next + 1) := by omega
  have n3 : ¬(h.next + 1 = h.next) := by omega
  have n4 : input ≠ h.next := by omega
  simp [n1, n2, n3, n4]

/-! ## Claim theorems -/

/-- C8: for every x-position (negative or beyond `N` included), the brightness
sampling of `animate` is in-bounds: the integer index produced by
`np.clip(col_x, 0, CANVAS_SIZE - 1).astype(int)` always lies in `[0, N-1]`,
and it is exactly the index `advanceCol` reads the buffer at, so the sampling
never accesses the `N×N` buffer out of range. -/
theorem sampleIndex_in_bounds (x : ℝ) :
    0 ≤ sampleIndex x ∧ sampleIndex x < (CANVAS_SIZE : ℤ) ∧
      ((sampleFin x : ℕ) : ℤ) = sampleIndex x :=
  ⟨sampleIndex_nonneg x, sampleIndex_lt x, Int.toNat_of_nonneg (sampleIndex_nonneg x)⟩

/-- C3: one advance step (before smoothing) updates a row's position as
`x' = x + baseSpeed * (1 - normBrightness * frictionFactor) + x * acceleration`
with `normBrightness` the buffer sample at the clamped truncated index divided
by 255; with `frictionFactor = 1`, `normBrightness = 1` (sample 255) and
`acceleration = 0` the displacement is exactly 0. -/
theorem advanceCol_update (P : PhysicsParams) (pixels : Field) (col : Col)
    (i : Fin CANVAS_SIZE) :
    advanceCol P pixels col i =
      col i + P.base_speed * (1 - pixels i (sampleFin (col i)) / 255 * P.friction_factor)
        + col i * P.acceleration ∧
    (P.friction_factor = 1 → P.acceleration = 0 →
      pixels i (sampleFin (col i)) = 255 → advanceCol P pixels col i = col i) := by
  constructor
  · simp only [advanceCol]; ring
  · intro hf ha hb
    simp only [advanceCol, hf, ha, hb]
    norm_num

/-- Witness for C3 at a concrete input: friction 1, acceleration 0, a uniform
255 buffer and a column at the left edge do not move. -/
theorem advanceCol_update_witness :
    advanceCol ⟨1, 15, 3, 1, 0, 3/10⟩ (fun _ _ => 255) (fun _ => 0) 0 = 0 :=
  (advanceCol_update ⟨1, 15, 3, 1, 0, 3/10⟩ (fun _ _ => 255) (fun _ => 0) 0).2
    rfl rfl rfl

/-- C4: after a tick, a column is in `particles_x` exactly when it is the
advanced-and-smoothed version of a spawned-or-live column and at least one of
its positions is `< CANVAS_SIZE`; equivalently, a column all of whose
positions are `≥ CANVAS_SIZE` is culled.  (`line_tension > 0` records that
scipy's filter is only defined for positive sigma.) -/
theorem animate_cull_iff (P : PhysicsParams) (pixels : Field) (s : SimState)
    (c : Col) (_hσ : 0 < P.line_tension) :
    c ∈ (animate P pixels s).particles_x ↔
      c ∈ (spawnList P s).map (advanceSmooth P pixels) ∧
        ∃ i, c i < (CANVAS_SIZE : ℝ) := by
  have hmin : colMin c < (CANVAS_SIZE : ℝ) ↔ ∃ i, c i < (CANVAS_SIZE : ℝ) := by
    rw [colMin, Finset.inf'_lt_iff]
    simp
  simp only [animate, List.mem_filter, decide_eq_true_eq, hmin]

/-- Witness for C4 at a concrete input: the all-zero column, a fresh state and
the default parameters. -/
theorem animate_cull_iff_witness :
    ((fun _ => (0 : ℝ)) ∈
        (animate defaultPhysics (fun _ _ => 0) ⟨[], 0, true⟩).particles_x ↔
      (fun _ => (0 : ℝ)) ∈
          (spawnList defaultPhysics ⟨[], 0, true⟩).map
            (advanceSmooth defaultPhysics (fun _ _ => 0)) ∧
        ∃ i : Fin CANVAS_SIZE, (fun _ => (0 : ℝ)) i < (CANVAS_SIZE : ℝ)) := by
  exact animate_cull_iff defaultPhysics (fun _ _ => 0) ⟨[], 0, true⟩ (fun _ => 0)
    (by norm_num [defaultPhysics])

/-- Physics parameters exercising the spawn-count divergence: `LINES_PER_FRAME = 2`,
`FRAME_INTERVAL = 1`, friction and acceleration off, tension 1. -/
noncomputable def spawnDemoPhysics : PhysicsParams := ⟨2, 1, 3, 0, 0, 1⟩

/-- C1 (divergence witness): with `LINES_PER_FRAME = 2` and `FRAME_INTERVAL = 1`,
one tick of `animate` from the fresh state leaves exactly one live column, not
`k*L = 2`: the spawn block (lines 334–337) appends a single all-zero column
and never reads `LINES_PER_FRAME`, contradicting that constant's own
documentation ("Number of lines generated per frame") and the `Lines/Frame`
slider of `controls.py`. -/
theorem animate_ignores_lines_per_frame :
    (animate spawnDemoPhysics (fun _ _ => 0) ⟨[], 0, true⟩).particles_x.length = 1 ∧
      spawnDemoPhysics.lines_per_frame = 2 := by
  have hadv : advanceCol spawnDemoPhysics (fun _ _ => 0) (fun _ => (0 : ℝ)) =
      fun _ => (3 : ℝ) := by
    funext i
    simp [advanceCol, spawnDemoPhysics]
  have hsm : advanceSmooth spawnDemoPhysics (fun _ _ => 0) (fun _ => (0 : ℝ)) =
      fun _ => (3 : ℝ) := by
    funext i
    rw [advanceSmooth, hadv]
    exact gaussianFilter1d_const _ _ _
  have hsp : spawnList spawnDemoPhysics ⟨[], 0, true⟩ = [fun _ => (0 : ℝ)] := by
    simp [spawnList, spawnDemoPhysics]
  constructor
  · simp only [animate, hsp, List.map_cons, List.map_nil, hsm, List.filter,
      colMin, Finset.inf'_const]
    norm_num
  · rfl

/-- The processing parameters of C2's scenario: steepness 9, midpoint 0.5,
blur 2. -/
noncomputable def midpointHalfProcess : ProcessParams := ⟨9, 1/2, 2⟩

/-- C2 (divergence witness): on the uniform 0.5 raw field (the flat mid-gray
scenario) the logistic output is constant, and line 140's unguarded
`(data - data.min()) / (data.max() - data.min())` evaluates `0/0` in every
entry — the brightness buffer is NaN-filled (`none`), not the defined all-zero
buffer the claim requires. -/
theorem apply_image_effects_uniform_nan :
    apply_image_effects midpointHalfProcess (fun _ _ => 1/2) = none := by
  simp [apply_image_effects, renormalize, fieldMax, fieldMin, Finset.sup'_const,
    Finset.inf'_const]

/-- C5: `load("")` and `load("/nonexistent/path")` never raise (the modelled
function is total: both exceptions of lines 96–101 are caught), both return
the field derived from the deterministic sinusoidal fallback texture, and the
two results are equal, for every file system on which the nonexistent path
fails to open and every decoding of the PIL stages. -/
theorem load_image_data_fallback {Img : Type}
    (decode : SourceImage Img → Fin CANVAS_SIZE → Fin CANVAS_SIZE → Fin 256)
    (openImage : String → Option Img)
    (h : openImage "/nonexistent/path" = none) :
    load_image_data decode openImage "" =
        load_image_data decode openImage "/nonexistent/path" ∧
      load_image_data decode openImage "" =
        postprocessLoaded (decode SourceImage.fallback) := by
  have hne : ("/nonexistent/path" : String) ≠ "" := by decide
  constructor <;> simp [load_image_data, h, hne]

/-- Witness for C5 at a concrete decode and an empty file system. -/
theorem load_image_data_fallback_witness :
    (load_image_data (fun _ _ _ => (0 : Fin 256)) (fun _ => (none : Option PUnit)) "" =
        load_image_data (fun _ _ _ => (0 : Fin 256)) (fun _ => (none : Option PUnit))
          "/nonexistent/path") ∧
      load_image_data (fun _ _ _ => (0 : Fin 256)) (fun _ => (none : Option PUnit)) "" =
        postprocessLoaded ((fun _ _ _ => (0 : Fin 256)) (SourceImage.fallback : SourceImage PUnit)) :=
  load_image_data_fallback (fun _ _ _ => (0 : Fin 256)) (fun _ => none) rfl

/-- C9: under nonnegative physics parameters (`baseSpeed > 0`,
`frictionFactor ∈ [0,1]`, `acceleration ≥ 0`), a brightness buffer in
`[0,255]` and a column with nonnegative positions, the advance-and-smooth step
keeps every position nonnegative and never decreases the column minimum: the
per-row displacement is nonnegative and the Gaussian smoothing is a convex
combination of the advanced positions. -/
theorem advanceSmooth_monotone_nonneg (P : PhysicsParams) (pixels : Field)
    (col : Col) (hb : 0 < P.base_speed) (hf0 : 0 ≤ P.friction_factor)
    (hf1 : P.friction_factor ≤ 1) (ha : 0 ≤ P.acceleration)
    (_hσ : 0 < P.line_tension)
    (hpix : ∀ i j, 0 ≤ pixels i j ∧ pixels i j ≤ 255)
    (hcol : ∀ i, 0 ≤ col i) :
    (∀ i, 0 ≤ advanceSmooth P pixels col i) ∧
      colMin col ≤ colMin (advanceSmooth P pixels col) := by
  have hstep : ∀ i, col i ≤ advanceCol P pixels col i := by
    intro i
    have hb255 := hpix i (sampleFin (col i))
    have hnb0 : 0 ≤ pixels i (sampleFin (col i)) / 255 :=
      div_nonneg hb255.1 (by norm_num)
    have hnb1 : pixels i (sampleFin (col i)) / 255 ≤ 1 := by
      rw [div_le_one (by norm_num : (0:ℝ) < 255)]
      exact hb255.2
    have hdamp : pixels i (sampleFin (col i)) / 255 * P.friction_factor ≤ 1 :=
      mul_le_one₀ hnb1 hf0 hf1
    have hspeed : 0 ≤ P.base_speed * (1 - pixels i (sampleFin (col i)) / 255 * P.friction_factor) :=
      mul_nonneg hb.le (by linarith)
    have haccel : 0 ≤ col i * P.acceleration := mul_nonneg (hcol i) ha
    simp only [advanceCol]
    linarith
  have hlow : ∀ i, colMin col ≤ advanceCol P pixels col i := fun i =>
    le_trans (Finset.inf'_le col (Finset.mem_univ i)) (hstep i)
  have hsmooth : ∀ i, colMin col ≤ advanceSmooth P pixels col i := fun i =>
    le_gaussianFilter1d P.line_tension hlow i
  have hmin0 : 0 ≤ colMin col :=
    Finset.le_inf' Finset.univ_nonempty col fun i _ => hcol i
  exact ⟨fun i => le_trans hmin0 (hsmooth i),
    Finset.le_inf' Finset.univ_nonempty _ fun i _ => hsmooth i⟩

/-- Witness for C9 at the default physics, a zero buffer and the all-zero
column. -/
theorem advanceSmooth_monotone_nonneg_witness :
    (∀ i, 0 ≤ advanceSmooth defaultPhysics (fun _ _ => 0) (fun _ => (0 : ℝ)) i) ∧
      colMin (fun _ => (0 : ℝ)) ≤
        colMin (advanceSmooth defaultPhysics (fun _ _ => 0) (fun _ => (0 : ℝ))) :=
  advanceSmooth_monotone_nonneg defaultPhysics (fun _ _ => 0) (fun _ => 0)
    (by norm_num [defaultPhysics]) (by norm_num [defaultPhysics])
    (by norm_num [defaultPhysics]) (by norm_num [defaultPhysics])
    (by norm_num [defaultPhysics])
    (fun _ _ => ⟨le_rfl, by norm_num⟩) (fun _ => le_rfl)

/-- C6 (divergence witness): the uniform-zero raw field is a valid `[0,1]`
field and the default parameters are valid, yet the brightness buffer is the
NaN-filled result of the unguarded line 140 (`none`), so its values do not lie
in `[0,255]`. -/
theorem apply_image_effects_uniform_zero_nan :
    apply_image_effects defaultProcess (fun _ _ => 0) = none := by
  simp [apply_image_effects, renormalize, fieldMax, fieldMin, Finset.sup'_const,
    Finset.inf'_const]

/-- The logistic S-curve is strictly increasing when the steepness is
positive. -/
theorem sCurve_lt_sCurve (p : ProcessParams) (hs : 0 < p.contrast_steepness)
    {x y : ℝ} (hxy : x < y) : sCurve p x < sCurve p y := by
  unfold sCurve
  have hexp : Real.exp (-(y - p.contrast_midpoint) * p.contrast_steepness) <
      Real.exp (-(x - p.contrast_midpoint) * p.contrast_steepness) :=
    Real.exp_lt_exp.2 (by nlinarith)
  have hy : (0 : ℝ) <
      1 + Real.exp (-(y - p.contrast_midpoint) * p.contrast_steepness) := by
    positivity
  exact one_div_lt_one_div_of_lt hy (by linarith)

/-- Entrywise bounds are preserved by the axis-0 blur pass. -/
theorem gaussAxis0_bounds {lo hi : ℝ} (σ : ℝ) {d : Field}
    (h : ∀ i j, lo ≤ d i j ∧ d i j ≤ hi) (i j : Fin CANVAS_SIZE) :
    lo ≤ gaussAxis0 σ d i j ∧ gaussAxis0 σ d i j ≤ hi :=
  ⟨le_gaussianFilter1d σ (fun r => (h r j).1) i,
    gaussianFilter1d_le σ (fun r => (h r j).2) i⟩

/-- Entrywise bounds are preserved by the axis-1 blur pass. -/
theorem gaussAxis1_bounds {lo hi : ℝ} (σ : ℝ) {d : Field}
    (h : ∀ i j, lo ≤ d i j ∧ d i j ≤ hi) (i j : Fin CANVAS_SIZE) :
    lo ≤ gaussAxis1 σ d i j ∧ gaussAxis1 σ d i j ≤ hi :=
  ⟨le_gaussianFilter1d σ (fun c => (h i c).1) j,
    gaussianFilter1d_le σ (fun c => (h i c).2) j⟩

/-- Every clipped sample lies in the clipping interval. -/
theorem clip01_bounds (x : ℚ) : 0 ≤ clip01 x ∧ clip01 x ≤ 1 :=
  ⟨le_min (le_max_right _ 0) (by norm_num), min_le_right _ 1⟩

/-- The global minimum is a lower bound of every field entry. -/
theorem fieldMin_le (d : Field) (i j : Fin CANVAS_SIZE) : fieldMin d ≤ d i j := by
  unfold fieldMin
  exact Finset.inf'_le (fun q : Fin CANVAS_SIZE × Fin CANVAS_SIZE => d q.1 q.2)
    (Finset.mem_univ (i, j))

/-- The global maximum is an upper bound of every field entry. -/
theorem le_fieldMax (d : Field) (i j : Fin CANVAS_SIZE) : d i j ≤ fieldMax d := by
  unfold fieldMax
  exact Finset.le_sup' (fun q : Fin CANVAS_SIZE × Fin CANVAS_SIZE => d q.1 q.2)
    (Finset.mem_univ (i, j))

/-- C6 (amended): for every raw field and processing parameters with
`blurSigma ≠ 0` (scipy's filter errors at 0) such that the logistic output is
not constant (otherwise line 140 produces NaN — see the counterexample), the
brightness buffer is defined with every value in `[0,255]`; and every value of
the raw field produced by the loader lies in `[0,1]`. -/
theorem brightness_and_raw_range (p : ProcessParams) (data : Field)
    (hσ : p.blur_sigma ≠ 0)
    (hnd : fieldMax (fun i j => sCurve p (data i j)) ≠
      fieldMin (fun i j => sCurve p (data i j))) :
    (∃ buf, apply_image_effects p data = some buf ∧
        ∀ i j, 0 ≤ buf i j ∧ buf i j ≤ 255) ∧
      ∀ (img : Fin CANVAS_SIZE → Fin CANVAS_SIZE → Fin 256) (i j : Fin CANVAS_SIZE),
        0 ≤ postprocessLoaded img i j ∧ postprocessLoaded img i j ≤ 1 := by
  constructor
  · have hmm : fieldMin (fun i j => sCurve p (data i j)) <
        fieldMax (fun i j => sCurve p (data i j)) := by
      refine lt_of_le_of_ne ?_ fun h => hnd h.symm
      exact le_trans (fieldMin_le (fun i j => sCurve p (data i j)) 0 0)
        (le_fieldMax (fun i j => sCurve p (data i j)) 0 0)
    have hr : ∀ i j, 0 ≤ renormValue (fun i j => sCurve p (data i j)) i j ∧
        renormValue (fun i j => sCurve p (data i j)) i j ≤ 1 := by
      intro i j
      have hlo : fieldMin (fun i j => sCurve p (data i j)) ≤ sCurve p (data i j) :=
        fieldMin_le (fun i j => sCurve p (data i j)) i j
      have hhi : sCurve p (data i j) ≤ fieldMax (fun i j => sCurve p (data i j)) :=
        le_fieldMax (fun i j => sCurve p (data i j)) i j
      constructor
      · exact div_nonneg (by linarith) (by linarith)
      · rw [renormValue, div_le_one (by linarith)]
        linarith
    have hblur := gaussAxis1_bounds p.blur_sigma (gaussAxis0_bounds p.blur_sigma hr)
    refine ⟨fun i j => gaussAxis1 p.blur_sigma
      (gaussAxis0 p.blur_sigma (renormValue (fun i j => sCurve p (data i j))))
      (flipIdx i) j * 255, ?_, ?_⟩
    · rw [apply_image_effects, renormalize, if_neg hnd]
      simp only [Option.some_bind, gaussianBlurField, if_neg hσ, Option.map_some']
    · intro i j
      have hb := hblur (flipIdx i) j
      dsimp only
      constructor
      · nlinarith [hb.1]
      · nlinarith [hb.1, hb.2]
  · intro img i j
    exact clip01_bounds _

/-- A raw field holding 0 at the corner and 1 elsewhere (a non-degenerate
input for the contrast step). -/
noncomputable def twoValuedField : Field :=
  fun i j => if i = 0 ∧ j = 0 then 0 else 1

/-- On the two-valued field, the default S-curve output is non-constant: the
logistic curve is strictly increasing, so the images of 0 and 1 separate the
field's maximum from its minimum. -/
theorem twoValuedField_nondegenerate :
    fieldMax (fun i j => sCurve defaultProcess (twoValuedField i j)) ≠
      fieldMin (fun i j => sCurve defaultProcess (twoValuedField i j)) := by
  have h01 : sCurve defaultProcess 0 < sCurve defaultProcess 1 :=
    sCurve_lt_sCurve defaultProcess (by norm_num [defaultProcess]) zero_lt_one
  have hv0 : twoValuedField 0 0 = 0 := by simp [twoValuedField]
  have hv1 : twoValuedField 1 0 = 1 := by
    have : ¬((1 : Fin CANVAS_SIZE) = 0 ∧ (0 : Fin CANVAS_SIZE) = 0) := by
      intro h
      exact absurd h.1 (by decide)
    simp [twoValuedField, this]
  have hmin : fieldMin (fun i j => sCurve defaultProcess (twoValuedField i j)) ≤
      sCurve defaultProcess 0 := by
    have := fieldMin_le (fun i j => sCurve defaultProcess (twoValuedField i j)) 0 0
    rwa [hv0] at this
  have hmax : sCurve defaultProcess 1 ≤
      fieldMax (fun i j => sCurve defaultProcess (twoValuedField i j)) := by
    have := le_fieldMax (fun i j => sCurve defaultProcess (twoValuedField i j)) 1 0
    rwa [hv1] at this
  intro h
  rw [h] at hmax
  linarith

/-- Witness for C6 (amended) at the two-valued field and default parameters. -/
theorem brightness_and_raw_range_witness :
    (∃ buf, apply_image_effects defaultProcess twoValuedField = some buf ∧
        ∀ i j, 0 ≤ buf i j ∧ buf i j ≤ 255) ∧
      ∀ (img : Fin CANVAS_SIZE → Fin CANVAS_SIZE → Fin 256) (i j : Fin CANVAS_SIZE),
        0 ≤ postprocessLoaded img i j ∧ postprocessLoaded img i j ≤ 1 :=
  brightness_and_raw_range defaultProcess twoValuedField
    (by norm_num [defaultProcess]) twoValuedField_nondegenerate

/-- A concrete application state with an image already loaded (the state in
force right after the module-level initialisation of lines 150–152). -/
noncomputable def demoAppState : AppState :=
  { raw_normalized_data := some (fun _ _ => 0)
    process_params := defaultProcess
    pixels := fun _ _ => 0
    current_image_path := "input.jpg"
    current_bg_color := "#3A4F68"
    current_dot_color := "#e1ebf5"
    view_visible := false
    sim := ⟨[], 0, true⟩
    recompute_count := 0 }

/-- C7 (divergence witness): the `set_dot_color` callback leaves
`PROCESS_PARAMS` and `raw_normalized_data` unchanged, yet invokes
`apply_image_effects` once more (lines 256–259, into a dead local), while an
`animate` tick indeed reuses the cached buffer without recomputation. -/
theorem set_dot_color_recomputes :
    (handleEvent defaultPhysics (UIEvent.setDotColor (some "#ffffff"))
          demoAppState).process_params = demoAppState.process_params ∧
      (handleEvent defaultPhysics (UIEvent.setDotColor (some "#ffffff"))
          demoAppState).raw_normalized_data = demoAppState.raw_normalized_data ∧
      (handleEvent defaultPhysics (UIEvent.setDotColor (some "#ffffff"))
          demoAppState).recompute_count = demoAppState.recompute_count + 1 ∧
      (handleEvent defaultPhysics UIEvent.animateTick
          demoAppState).recompute_count = demoAppState.recompute_count :=
  ⟨rfl, rfl, rfl, rfl⟩

/-- C10: `apply_image_effects` never mutates its input buffer: after a run,
every previously allocated array — in particular the cached
`raw_normalized_data` passed as input — holds exactly its old contents, the
returned buffer is a fresh id distinct from the input, its contents are a pure
function of the input's contents, and a second run with different parameters
over the same input id still reads the original raw data. -/
theorem apply_image_effects_no_mutation (p p' : ProcessParams) (h : Heap)
    (input : ℕ) (hin : input < h.next) :
    (apply_image_effects_heap p h input).1.arr input = h.arr input ∧
      (apply_image_effects_heap p h input).2 ≠ input ∧
      (apply_image_effects_heap p h input).1.arr (apply_image_effects_heap p h input).2 =
        apply_image_effects_total p (h.arr input) ∧
      (apply_image_effects_heap p' (apply_image_effects_heap p h input).1 input).1.arr
          ((apply_image_effects_heap p' (apply_image_effects_heap p h input).1 input).2) =
        apply_image_effects_total p' (h.arr input) := by
  refine ⟨apply_image_effects_heap_preserves p h hin, ?_,
    apply_image_effects_heap_value p h hin, ?_⟩
  · rw [apply_image_effects_heap_out]
    omega
  · have hin' : input < (apply_image_effects_heap p h input).1.next := by
      rw [apply_image_effects_heap_next]
      omega
    rw [apply_image_effects_heap_value p' _ hin',
      apply_image_effects_heap_preserves p h hin]

/-- A one-array heap holding the zero raw field. -/
noncomputable def demoHeap : Heap := ⟨1, fun _ _ _ => 0⟩

/-- Witness for C10 at the one-array heap, running the processor twice with
the default parameters. -/
theorem apply_image_effects_no_mutation_witness :
    (apply_image_effects_heap defaultProcess demoHeap 0).1.arr 0 = demoHeap.arr 0 ∧
      (apply_image_effects_heap defaultProcess demoHeap 0).2 ≠ 0 ∧
      (apply_image_effects_heap defaultProcess demoHeap 0).1.arr
          (apply_image_effects_heap defaultProcess demoHeap 0).2 =
        apply_image_effects_total defaultProcess (demoHeap.arr 0) ∧
      (apply_image_effects_heap midpointHalfProcess
            (apply_image_effects_heap defaultProcess demoHeap 0).1 0).1.arr
          ((apply_image_effects_heap midpointHalfProcess
            (apply_image_effects_heap defaultProcess demoHeap 0).1 0).2) =
        apply_image_effects_total midpointHalfProcess (demoHeap.arr 0) :=
  apply_image_effects_no_mutation defaultProcess midpointHalfProcess demoHeap 0
    (by norm_num [demoHeap])

end LineGirl
